import Mathlib

set_option maxRecDepth 8000

/-!
Shallow embedding of the numeric core of the IMU assignment
(src/assignment-1-imu/position.py and src/assignment-1-imu/calculate_params.py):
calibration application, trapezoidal double integration (plain and ZUPT modes),
stationarity detection, drift metrics, and the ellipsoid-fit pipeline.
Machine floats are modelled by exact rationals (and reals where a square root
occurs); IEEE special values (inf/NaN) are modelled by Lean's total-function
junk values (division by zero is zero, Real.sqrt of a negative is zero), which
is noted at each place it matters.
-/

namespace EmbeddedIMU

/-- One row of the input table: columns seconds_elapsed, x_acc, y_acc, z_acc. -/
structure Sample where
  t : ℚ
  ax : ℚ
  ay : ℚ
  az : ℚ
  deriving DecidableEq, Inhabited

/-- A tri-axial value (x, y, z components). -/
abbrev V3 := ℚ × ℚ × ℚ

/-- Standard gravity 9.81 m/s², the constant the source divides/multiplies by
for unit conversion. -/
def g : ℚ := 981 / 100

/-- The module-level configuration constants of position.py
(UNITS_IN_MPS2, APPLY_ZUPT, ACC_THRESHOLD, WINDOW_SIZE), passed explicitly. -/
structure Cfg where
  units_in_mps2 : Bool
  apply_zupt : Bool
  acc_threshold : ℚ
  window_size : ℕ

/-- Row i of the series (indexing `time[i]`, `result[...][i]` in the source;
out-of-range indices, never reached by the source loops, give a junk row). -/
def sampleAt (s : List Sample) (i : ℕ) : Sample := s.getD i default

/-- `time[i]`, i.e. `seconds_elapsed` at row i. -/
def tAt (s : List Sample) (i : ℕ) : ℚ := (sampleAt s i).t

/-- The `x_acc_mps2 / y_acc_mps2 / z_acc_mps2` columns: the raw columns when
UNITS_IN_MPS2 is set, otherwise each raw column multiplied by g. -/
def accAt (cfg : Cfg) (s : List Sample) (i : ℕ) : V3 :=
  let smp := sampleAt s i
  if cfg.units_in_mps2 then (smp.ax, smp.ay, smp.az)
  else (smp.ax * g, smp.ay * g, smp.az * g)

/-- One trapezoidal increment `0.5 * (u + w) * dt`, applied per axis exactly as
in the source update lines. -/
def trapz (dt : ℚ) (u w : V3) : V3 :=
  ((1/2) * (u.1 + w.1) * dt,
   (1/2) * (u.2.1 + w.2.1) * dt,
   (1/2) * (u.2.2 + w.2.2) * dt)

/-- Velocity array of `calculate_position` (plain mode), defined by the loop
`vx[i] = vx[i-1] + 0.5*(a[i-1]+a[i])*dt` with `vx[0] = 0` (np.zeros). -/
def vP (cfg : Cfg) (s : List Sample) : ℕ → V3
  | 0 => (0, 0, 0)
  | i + 1 =>
      vP cfg s i +
        trapz (tAt s (i+1) - tAt s i) (accAt cfg s i) (accAt cfg s (i+1))

/-- Position array of `calculate_position` (plain mode), defined by the loop
`px[i] = px[i-1] + 0.5*(vx[i-1]+vx[i])*dt` with `px[0] = 0`. -/
def pP (cfg : Cfg) (s : List Sample) : ℕ → V3
  | 0 => (0, 0, 0)
  | i + 1 =>
      pP cfg s i +
        trapz (tAt s (i+1) - tAt s i) (vP cfg s i) (vP cfg s (i+1))

/-- Per-sample motion state: the velocity and position columns the integrator
adds to the dataframe. -/
structure State where
  v : V3
  p : V3
  deriving DecidableEq, Inhabited

/-- Acceleration-magnitude series of `detect_stationary_periods`:
`sqrt(x_acc**2 + y_acc**2 + z_acc**2)` per row (raw columns). -/
noncomputable def magnitudes (s : List Sample) : List ℝ :=
  s.map (fun smp => Real.sqrt (((smp.ax ^ 2 + smp.ay ^ 2 + smp.az ^ 2 : ℚ) : ℝ)))

/-- Sample variance with ddof = 1, as pandas `Series.var` computes over one
window. -/
noncomputable def sampleVar (l : List ℝ) : ℝ :=
  ((l.map (fun x => (x - l.sum / l.length) ^ 2)).sum) / ((l.length : ℝ) - 1)

/-- `pd.Series(acc_mag).rolling(window=w).var().fillna(0)` at index i: the
first w-1 entries are NaN filled with 0; from index w-1 on, the variance of
the w-wide window ending at i. -/
noncomputable def rollingVar (w : ℕ) (xs : List ℝ) (i : ℕ) : ℝ :=
  if i + 1 < w then 0 else sampleVar ((xs.drop (i + 1 - w)).take w)

/-- `is_stationary[i]` of `detect_stationary_periods`: rolling variance of the
acceleration magnitude strictly below the threshold. -/
def is_stationary (cfg : Cfg) (s : List Sample) (i : ℕ) : Prop :=
  rollingVar cfg.window_size (magnitudes s) i < (cfg.acc_threshold : ℝ)

open Classical in
/-- Velocity array of `calculate_position_with_zupt`: the trapezoidal update
when `not is_stationary[i]`, a hard reset to zero otherwise; `vx[0] = 0`. -/
noncomputable def vZ (cfg : Cfg) (s : List Sample) : ℕ → V3
  | 0 => (0, 0, 0)
  | i + 1 =>
      if ¬ is_stationary cfg s (i + 1) then
        vZ cfg s i +
          trapz (tAt s (i+1) - tAt s i) (accAt cfg s i) (accAt cfg s (i+1))
      else (0, 0, 0)

/-- Position array of `calculate_position_with_zupt`: the trapezoidal rule over
the (possibly clamped) velocities, unconditionally; `px[0] = 0`. -/
noncomputable def pZ (cfg : Cfg) (s : List Sample) : ℕ → V3
  | 0 => (0, 0, 0)
  | i + 1 =>
      pZ cfg s i +
        trapz (tAt s (i+1) - tAt s i) (vZ cfg s i) (vZ cfg s (i+1))

/-- `calculate_position_with_zupt`: one motion state per input row. -/
noncomputable def calculate_position_with_zupt (cfg : Cfg) (s : List Sample) :
    List State :=
  (List.range s.length).map (fun i => ⟨vZ cfg s i, pZ cfg s i⟩)

/-- `calculate_position`: dispatches to the ZUPT integrator when APPLY_ZUPT is
set, otherwise runs the plain trapezoidal loops; one state per input row. -/
noncomputable def calculate_position (cfg : Cfg) (s : List Sample) :
    List State :=
  if cfg.apply_zupt then calculate_position_with_zupt cfg s
  else (List.range s.length).map (fun i => ⟨vP cfg s i, pP cfg s i⟩)

/-- Euclidean magnitude `sqrt(x**2 + y**2 + z**2)` of a tri-axial value; this
is both the `displacement` column formula and `np.linalg.norm` on a 3-vector. -/
noncomputable def normR (v : V3) : ℝ :=
  Real.sqrt (((v.1 ^ 2 + v.2.1 ^ 2 + v.2.2 ^ 2 : ℚ) : ℝ))

/-- The `displacement` column added by both integrators:
`np.sqrt(px**2 + py**2 + pz**2)` per row. -/
noncomputable def dispCol (states : List State) : List ℝ :=
  states.map (fun st => normR st.p)

/-- The drift metrics record built by `calculate_drift`; the optional fields
exist only when a known distance is passed. -/
structure DriftMetrics where
  final_position : V3
  final_displacement : ℝ
  drift_magnitude : ℝ
  known_distance : Option ℚ
  max_displacement : Option ℝ
  max_displacement_error : Option ℝ
  max_displacement_error_percent : Option ℝ
  return_error : Option ℝ

/-- pandas `Series.max` over the displacement column (junk 0 on an empty
series, where pandas would give NaN; the source always has rows here). -/
noncomputable def maxD : List ℝ → ℝ
  | [] => 0
  | [x] => x
  | x :: y :: tl => max x (maxD (y :: tl))

/-- `calculate_drift(position_data, known_distance)`. `final_pos` and
`final_disp` read the last row (`iloc[-1]`); `drift_magnitude` and
`return_error` are `np.linalg.norm(final_pos)`. With a known distance the
percent field divides by it unguarded: at `known_distance = 0` the source's
numpy float division yields inf/nan (no exception is raised and no
ConfigurationError type exists); the rational model gives the junk value 0
there. In every case a full metrics record is returned. -/
noncomputable def calculate_drift (pd : List State) (kd : Option ℚ) :
    DriftMetrics :=
  let final_pos := (pd.getLastD default).p
  let final_disp := (dispCol pd).getLastD 0
  match kd with
  | none =>
      ⟨final_pos, final_disp, normR final_pos, none, none, none, none, none⟩
  | some d =>
      let max_disp := maxD (dispCol pd)
      ⟨final_pos, final_disp, normR final_pos, some d, some max_disp,
        some |max_disp - (d : ℝ)|,
        some (|max_disp - (d : ℝ)| / (d : ℝ) * 100),
        some (normR final_pos)⟩

/-- Calibration parameters as parsed from calibration_params.json: a bias list
and a transform matrix as nested lists (shapes unchecked until used). -/
structure CalParams where
  bias : List ℚ
  transform : List (List ℚ)
  deriving DecidableEq

/-- `acc_data[i] - bias` (numpy elementwise subtraction); a bias of any shape
other than three entries raises in the source and is modelled as `none`. -/
def sub3 (x : Fin 3 → ℚ) (bias : List ℚ) : Option (Fin 3 → ℚ) :=
  match bias with
  | [b0, b1, b2] => some ![x 0 - b0, x 1 - b1, x 2 - b2]
  | _ => none

/-- One row of `np.dot(transform_matrix, v)`; wrong row arity raises in the
source and is modelled as `none`. -/
def dotRow (row : List ℚ) (v : Fin 3 → ℚ) : Option ℚ :=
  match row with
  | [a, b, c] => some (a * v 0 + b * v 1 + c * v 2)
  | _ => none

/-- `np.dot(transform_matrix, v)` for a 3x3 nested-list matrix. -/
def dotMat (m : List (List ℚ)) (v : Fin 3 → ℚ) : Option (Fin 3 → ℚ) :=
  match m with
  | [r0, r1, r2] => do
      let a ← dotRow r0 v
      let b ← dotRow r1 v
      let c ← dotRow r2 v
      some ![a, b, c]
  | _ => none

/-- The body of `apply_calibration`'s try block for one acceleration row:
divide by g when the caller's unit is m/s², subtract the bias, multiply by the
transform matrix, and multiply back by g. `none` models a raised exception. -/
def applyCal (cfg : Cfg) (p : CalParams) (x : Fin 3 → ℚ) :
    Option (Fin 3 → ℚ) := do
  let x1 := if cfg.units_in_mps2 then (fun i => x i / g) else x
  let xb ← sub3 x1 p.bias
  let y ← dotMat p.transform xb
  some (if cfg.units_in_mps2 then (fun i => y i * g) else y)

/-- The acceleration columns of one row as a 3-vector. -/
def accVec (smp : Sample) : Fin 3 → ℚ := ![smp.ax, smp.ay, smp.az]

/-- One calibrated row: the original timestamp with the acceleration columns
replaced by the calibrated values. -/
def calSample (cfg : Cfg) (p : CalParams) (smp : Sample) : Option Sample :=
  (applyCal cfg p (accVec smp)).map (fun y => ⟨smp.t, y 0, y 1, y 2⟩)

/-- The calibration loop over all rows
(`for i in range(len(acc_data)): calibrated_data[i] = ...`); an exception at
any row aborts the whole try block, modelled by `none`. -/
def calRows (cfg : Cfg) (p : CalParams) : List Sample → Option (List Sample)
  | [] => some []
  | smp :: tl => do
      let y ← calSample cfg p smp
      let rest ← calRows cfg p tl
      some (y :: rest)

/-- `apply_calibration(data, cal_params)`: with `None` parameters it prints a
warning and returns the raw data unchanged; if anything inside the try block
raises, the except branch prints a warning and returns the raw data unchanged;
otherwise it returns the dataframe with calibrated acceleration columns. -/
def apply_calibration (cfg : Cfg) (cp : Option CalParams) (s : List Sample) :
    List Sample :=
  match cp with
  | none => s
  | some p =>
      match calRows cfg p s with
      | some out => out
      | none => s

/-- Well-shaped calibration parameters built from a bias vector and a 3x3
transform matrix. -/
def mkParams (b : Fin 3 → ℚ) (T : Matrix (Fin 3) (Fin 3) ℚ) : CalParams :=
  ⟨[b 0, b 1, b 2],
   [[T 0 0, T 0 1, T 0 2], [T 1 0, T 1 1, T 1 2], [T 2 0, T 2 1, T 2 2]]⟩

/-- The calibration application step inside `calibrate_accelerometer`
(calculate_params.py lines 80-82): `centered = points - bias` and
`calibrated = np.dot(centered, transform_matrix.T)`, row-wise over the whole
point cloud. -/
def calibrate_accelerometer_apply (bias : Fin 3 → ℚ)
    (T : Matrix (Fin 3) (Fin 3) ℚ) (pts : List (Fin 3 → ℚ)) :
    List (Fin 3 → ℚ) :=
  pts.map (fun pt => Matrix.vecMul (fun i => pt i - bias i) T.transpose)

/- Ellipsoid fitting (calculate_params.py, fit_ellipsoid). -/

abbrev Mat3 := Matrix (Fin 3) (Fin 3) ℚ
abbrev Mat4 := Matrix (Fin 4) (Fin 4) ℚ

/-- One row of the design matrix `D` for the general quadric. -/
def designRow (x y z : ℚ) : Fin 9 → ℚ :=
  ![x^2, y^2, z^2, 2*x*y, 2*x*z, 2*y*z, 2*x, 2*y, 2*z]

/-- `D = np.column_stack([X**2, ..., 2*Z])`, one row per input point. -/
def designMatrix (pts : List (ℚ × ℚ × ℚ)) : List (Fin 9 → ℚ) :=
  pts.map (fun pt => designRow pt.1 pt.2.1 pt.2.2)

/-- The symmetric homogeneous 4x4 quadric matrix `A` assembled from the nine
least-squares coefficients. -/
def quadricA (u : Fin 9 → ℚ) : Mat4 :=
  !![u 0, u 3, u 4, u 6;
     u 3, u 1, u 5, u 7;
     u 4, u 5, u 2, u 8;
     u 6, u 7, u 8, -1]

/-- `A[:3, :3]`. -/
def blockA33 (A : Mat4) : Mat3 :=
  Matrix.of fun i j => A i.castSucc j.castSucc

/-- `A[:3, 3]`. -/
def colA3 (A : Mat4) : Fin 3 → ℚ := fun i => A i.castSucc 3

/-- Determinant of a 3x3 matrix by cofactor expansion. -/
def det3 (M : Mat3) : ℚ :=
  M 0 0 * (M 1 1 * M 2 2 - M 1 2 * M 2 1)
    - M 0 1 * (M 1 0 * M 2 2 - M 1 2 * M 2 0)
    + M 0 2 * (M 1 0 * M 2 1 - M 1 1 * M 2 0)

/-- Column j of M replaced by v. -/
def replCol (M : Mat3) (j : Fin 3) (v : Fin 3 → ℚ) : Mat3 :=
  Matrix.of fun r c => if c = j then v r else M r c

/-- `np.linalg.solve(M, v)` on a 3x3 system, via Cramer's rule; `none` models
the LinAlgError numpy raises on a singular matrix. -/
def solve3 (M : Mat3) (v : Fin 3 → ℚ) : Option (Fin 3 → ℚ) :=
  if det3 M = 0 then none
  else some (fun j => det3 (replCol M j v) / det3 M)

/-- `T = np.eye(4); T[:3, 3] = center`. -/
def transT (center : Fin 3 → ℚ) : Mat4 :=
  Matrix.of fun i j =>
    if (j : ℕ) = 3 then
      (if hi : (i : ℕ) < 3 then center ⟨i, hi⟩ else 1)
    else if i = j then 1 else 0

/-- `R[:3, :3] / -R[3, 3]`, the matrix handed to the eigendecomposition. -/
def eigInput (R : Mat4) : Mat3 :=
  Matrix.of fun i j => blockA33 R i j / (- R 3 3)

/-- `fit_ellipsoid(X, Y, Z)`. The two numpy calls whose numerics are not
reproduced here - `np.linalg.lstsq` and `np.linalg.eig` - are taken as
function arguments; every theorem that instantiates them certifies, at its
concrete input, that the instantiation is a genuine least-squares solution
respectively a genuine eigendecomposition of the concrete matrix involved.
The function performs no input validation of its own: the only failure path
is the singular center solve (`np.linalg.solve` raising, modelled by `none`),
and the radii are `1.0 / np.sqrt(evals)` with no positivity check (on a
non-positive eigenvalue the source yields NaN; the real-number model yields
the junk value 0, in either case not a strictly positive real). -/
noncomputable def fit_ellipsoid
    (lstsq : List (Fin 9 → ℚ) → List ℚ → (Fin 9 → ℚ))
    (eig : Mat3 → (Fin 3 → ℚ) × Mat3)
    (pts : List (ℚ × ℚ × ℚ)) :
    Option ((Fin 3 → ℚ) × (Fin 3 → ℝ) × Mat3) :=
  let D := designMatrix pts
  let ones := pts.map (fun _ => (1 : ℚ))
  let u := lstsq D ones
  let A := quadricA u
  match solve3 (- blockA33 A) (colA3 A) with
  | none => none
  | some center =>
      let R := transT center * A * (transT center).transpose
      let ev := eig (eigInput R)
      some (center, fun i => 1 / Real.sqrt ((ev.1 i : ℝ)), ev.2)

/- Concrete configurations and inputs used by counterexamples and witnesses. -/

/-- Plain-mode configuration: input already in m/s², ZUPT off, the source's
default ACC_THRESHOLD = 0.01 and WINDOW_SIZE = 5. -/
def cfg0 : Cfg := ⟨true, false, 1/100, 5⟩

/-- ZUPT-mode configuration, same thresholds. -/
def cfgZ : Cfg := ⟨true, true, 1/100, 5⟩

/-- g-unit configuration variant used for the calibration claims
(UNITS_IN_MPS2 false), ZUPT off. -/
def cfgG : Cfg := ⟨false, false, 1/100, 5⟩

/-- The spec's concrete scenario: x-axis acceleration `[0, 2, 0]` at times
`[0, 1, 2]`, y and z zero. -/
def s1 : List Sample := [⟨0, 0, 0, 0⟩, ⟨1, 2, 0, 0⟩, ⟨2, 0, 0, 0⟩]

/-- A three-row series with a nonzero middle acceleration, used to exercise
the ZUPT velocity clamp. -/
def sZ : List Sample := [⟨0, 0, 0, 0⟩, ⟨1, 5, 0, 0⟩, ⟨2, 0, 0, 0⟩]

/-- Two rows with strictly decreasing timestamps (dt = -1) and constant
nonzero x acceleration. -/
def s4 : List Sample := [⟨1, 1, 0, 0⟩, ⟨0, 1, 0, 0⟩]

/-- Two rows with identical timestamps (dt = 0) and nonzero x acceleration. -/
def s4w : List Sample := [⟨0, 3, 0, 0⟩, ⟨0, 4, 0, 0⟩]

/-- A single all-zero row. -/
def smp0 : Sample := ⟨0, 0, 0, 0⟩

/-- A single row with nonzero acceleration entries. -/
def s2 : List Sample := [⟨0, 1, 2, 3⟩]

/-- Malformed calibration parameters: a two-entry bias, as a truncated
calibration_params.json would produce; the numpy subtraction in the try block
raises on it. -/
def badParams : CalParams := ⟨[1, 2], [[1, 0, 0], [0, 1, 0], [0, 0, 1]]⟩

/-- Nine points lying exactly on the hyperboloid x^2 + y^2 - z^2 = 1: a
surface whose quadratic form has the negative eigenvalue -1. Their 9x9 design
matrix D9 is invertible (E9 * D9 = 1 below), so the least-squares system has
exactly one solution, u0. -/
def pts9 : List (ℚ × ℚ × ℚ) :=
  [(1, 0, 0), (0, 1, 0), (-1, 0, 0), (0, -1, 0), (1, 1, 1),
   (1, -1, 1), (1, 1, -1), (-1, 1, 1), (1, 2, 2)]

/-- The same nine points as a Fin-indexed vector, for matrix bookkeeping. -/
def p9 : Fin 9 → ℚ × ℚ × ℚ :=
  ![(1, 0, 0), (0, 1, 0), (-1, 0, 0), (0, -1, 0), (1, 1, 1),
    (1, -1, 1), (1, 1, -1), (-1, 1, 1), (1, 2, 2)]

/-- The 9x9 design matrix of pts9: row i is the design row of the i-th point
(definitionally the rows of `designMatrix pts9`). -/
def D9 : Matrix (Fin 9) (Fin 9) ℚ :=
  Matrix.of fun i j => designRow (p9 i).1 (p9 i).2.1 (p9 i).2.2 j

/-- An explicit left (hence two-sided) inverse of D9: E9 * D9 = 1 certifies
that the design matrix of pts9 has full rank, so the exact solution u0 is the
unique solution of the least-squares problem. -/
def E9 : Matrix (Fin 9) (Fin 9) ℚ :=
  !![1/2, 0, 1/2, 0, 0, 0, 0, 0, 0;
     0, 1/2, 0, 1/2, 0, 0, 0, 0, 0;
     -1/4, -1/2, 0, -1/2, -1/2, 1/4, 1/4, 0, 1/4;
     -3/8, -1/4, 0, 1/4, 1/2, -1/8, 1/8, 0, -1/8;
     1/8, 1/4, 1/4, -1/4, -1/4, 1/8, -1/8, -1/4, 1/8;
     3/8, 0, 0, 0, -1/4, -1/8, -1/8, 0, 1/8;
     1/4, 0, -1/4, 0, 0, 0, 0, 0, 0;
     0, 1/4, 0, -1/4, 0, 0, 0, 0, 0;
     -1/2, -1/4, -1/4, 1/4, 3/4, 0, 0, 1/4, -1/4]

/-- The exact quadric coefficients of the hyperboloid: the unique (residual
zero) solution of the least-squares problem on pts9. -/
def u0 : Fin 9 → ℚ := ![1, 1, -1, 0, 0, 0, 0, 0, 0]

/-- An `np.linalg.lstsq` instantiation that returns u0. The counterexample
certifies that u0 solves the design system of pts9 exactly and that the
design matrix is invertible (E9 * D9 = 1), so u0 is the unique least-squares
solution - the one numpy's lstsq returns on this system. -/
def lstsq0 : List (Fin 9 → ℚ) → List ℚ → (Fin 9 → ℚ) := fun _ _ => u0

/-- An `np.linalg.eig` instantiation returning the diagonal as eigenvalues and
the identity as eigenvectors; exact on diagonal matrices, which the
counterexample certifies for the concrete matrix involved. -/
def eig0 : Mat3 → (Fin 3 → ℚ) × Mat3 := fun M => (fun i => M i i, 1)

/-- The center the fit computes for pts9: the origin. -/
def cen0 : Fin 3 → ℚ := fun _ => 0

/-- The eigenvalues of the quadratic form of pts9: (1, 1, -1). -/
def d0 : Fin 3 → ℚ := ![1, 1, -1]

/-- The per-sample calibration loop applied to a bare point cloud (the same
row loop as `calRows`, for vectors, used to compare the two application
implementations). -/
def applyCalRows (cfg : Cfg) (p : CalParams) :
    List (Fin 3 → ℚ) → Option (List (Fin 3 → ℚ))
  | [] => some []
  | x :: tl => do
      let y ← applyCal cfg p x
      let rest ← applyCalRows cfg p tl
      some (y :: rest)

/-- A concrete nonzero bias. -/
def bEx : Fin 3 → ℚ := ![1, 0, 0]

/-- The identity transform matrix as an explicit 3x3 matrix. -/
def TId : Mat3 := !![1, 0, 0; 0, 1, 0; 0, 0, 1]

/-- The zero input vector. -/
def zv : Fin 3 → ℚ := fun _ => 0

/- Theorems. -/

/-- C1 counterexample: on the spec's concrete series (t = [0,1,2],
x-acceleration [0,2,0], plain mode) the integrator does NOT produce
v = [0, 1, 1] and p = [0, 0.5, 1.5]: the trapezoidal recurrence the source
implements gives v[2] = v[1] + 0.5*(2+0)*1 = 2, not 1. -/
theorem plain_concrete_scenario_counterexample :
    ¬ (((calculate_position cfg0 s1).map State.v)
          = [(0, 0, 0), (1, 0, 0), (1, 0, 0)] ∧
       ((calculate_position cfg0 s1).map State.p)
          = [(0, 0, 0), (1/2, 0, 0), (3/2, 0, 0)]) := by
  simp [calculate_position, cfg0, s1, vP, pP, trapz, tAt, sampleAt, accAt,
    List.range_succ]

/-- C1 (corrected): the values the plain-mode integrator actually produces on
the spec's concrete series are v = [0, 1, 2] and p = [0, 0.5, 2]. -/
theorem plain_concrete_scenario_values :
    ((calculate_position cfg0 s1).map State.v)
        = [(0, 0, 0), (1, 0, 0), (2, 0, 0)] ∧
    ((calculate_position cfg0 s1).map State.p)
        = [(0, 0, 0), (1/2, 0, 0), (2, 0, 0)] := by
  simp [calculate_position, cfg0, s1, vP, pP, trapz, tAt, sampleAt, accAt,
    List.range_succ]
  norm_num

/-- Both integrators return one state per input sample (shared helper). -/
theorem calculate_position_length (cfg : Cfg) (s : List Sample) :
    (calculate_position cfg s).length = s.length := by
  cases hz : cfg.apply_zupt <;>
    simp [calculate_position, hz, calculate_position_with_zupt]

/-- C4 counterexample: with strictly decreasing timestamps (dt = -1 at step 1)
and constant nonzero x-acceleration, the plain integrator is NOT a no-update
step: it applies the trapezoidal increment with the negative dt, so both
velocity and position change. -/
theorem nonpositive_dt_counterexample :
    tAt s4 1 - tAt s4 0 ≤ 0 ∧
    vP cfg0 s4 1 ≠ vP cfg0 s4 0 ∧
    pP cfg0 s4 1 ≠ pP cfg0 s4 0 := by
  refine ⟨by norm_num [tAt, sampleAt, s4], ?_, ?_⟩ <;>
    simp [vP, pP, trapz, tAt, sampleAt, accAt, cfg0, s4]

/-- C4 (corrected): in plain mode a step whose timestamp repeats (dt = 0) is a
no-update step - velocity and position carry over unchanged; for dt < 0 the
increment is applied with the negative dt (see the counterexample). -/
theorem zero_dt_no_update (cfg : Cfg) (s : List Sample) (i : ℕ)
    (h1 : 1 ≤ i) (ht : tAt s i = tAt s (i - 1)) :
    vP cfg s i = vP cfg s (i - 1) ∧ pP cfg s i = pP cfg s (i - 1) := by
  obtain ⟨k, rfl⟩ : ∃ k, i = k + 1 := ⟨i - 1, by omega⟩
  simp only [Nat.add_sub_cancel] at ht ⊢
  rw [vP, pP, ht]
  simp [trapz, Prod.ext_iff]

/-- Witness for the corrected C4 at a concrete repeated-timestamp series. -/
theorem zero_dt_no_update_witness :
    tAt s4w 1 = tAt s4w 0 ∧
    (vP cfg0 s4w 1 = vP cfg0 s4w 0 ∧ pP cfg0 s4w 1 = pP cfg0 s4w 0) :=
  ⟨by norm_num [tAt, sampleAt, s4w],
   zero_dt_no_update cfg0 s4w 1 (by norm_num)
     (by norm_num [tAt, sampleAt, s4w])⟩

/-- C3: for every configuration (covering both plain and ZUPT modes) and every
nonempty series, the integrator returns exactly one state per input sample and
the first state has velocity (0,0,0) and position (0,0,0). -/
theorem integration_boundary (cfg : Cfg) (s : List Sample) (h : s ≠ []) :
    (calculate_position cfg s).length = s.length ∧
    (calculate_position cfg s)[0]? = some ⟨(0, 0, 0), (0, 0, 0)⟩ := by
  refine ⟨calculate_position_length cfg s, ?_⟩
  have hpos : 0 < s.length := List.length_pos.mpr h
  cases hz : cfg.apply_zupt <;>
    simp [calculate_position, hz, calculate_position_with_zupt, hpos,
      vP, pP, vZ, pZ]

/-- Witness for C3 at a concrete one-row series in ZUPT mode. -/
theorem integration_boundary_witness :
    ([smp0] : List Sample) ≠ [] ∧
    ((calculate_position cfgZ [smp0]).length = [smp0].length ∧
     (calculate_position cfgZ [smp0])[0]? = some ⟨(0, 0, 0), (0, 0, 0)⟩) :=
  ⟨by simp, integration_boundary cfgZ [smp0] (by simp)⟩

/-- C2: in ZUPT mode, at every index i >= 1 detected stationary, the
integrator hard-resets velocity[i] to (0,0,0) on all three axes regardless of
the previous velocity, while the position update at i remains the trapezoidal
rule over the velocities - the same formula as plain mode. -/
theorem zupt_clamps_velocity (cfg : Cfg) (s : List Sample) (i : ℕ)
    (hz : cfg.apply_zupt = true) (h1 : 1 ≤ i) (hi : i < s.length)
    (hst : is_stationary cfg s i) :
    (calculate_position cfg s)[i]? = some ⟨vZ cfg s i, pZ cfg s i⟩ ∧
    vZ cfg s i = (0, 0, 0) ∧
    pZ cfg s i = pZ cfg s (i - 1) +
      trapz (tAt s i - tAt s (i - 1)) (vZ cfg s (i - 1)) (vZ cfg s i) := by
  obtain ⟨k, rfl⟩ : ∃ k, i = k + 1 := ⟨i - 1, by omega⟩
  refine ⟨?_, ?_, ?_⟩
  · simp [calculate_position, hz, calculate_position_with_zupt, hi]
  · rw [vZ, if_neg (not_not_intro hst)]
  · simp only [Nat.add_sub_cancel]
    rw [pZ]

/-- Witness for C2: a three-row ZUPT run whose index 1 falls in the
fillna(0)-variance prefix (window 5), hence is detected stationary, and whose
velocity is clamped to zero despite the nonzero acceleration there. -/
theorem zupt_clamps_velocity_witness :
    is_stationary cfgZ sZ 1 ∧
    ((calculate_position cfgZ sZ)[1]? = some ⟨vZ cfgZ sZ 1, pZ cfgZ sZ 1⟩ ∧
     vZ cfgZ sZ 1 = (0, 0, 0) ∧
     pZ cfgZ sZ 1 = pZ cfgZ sZ 0 +
       trapz (tAt sZ 1 - tAt sZ 0) (vZ cfgZ sZ 0) (vZ cfgZ sZ 1)) := by
  have hst : is_stationary cfgZ sZ 1 := by
    norm_num [is_stationary, rollingVar, cfgZ]
  exact ⟨hst, zupt_clamps_velocity cfgZ sZ 1 rfl (by norm_num)
    (by norm_num [sZ]) hst⟩

/-- The last entry of the displacement column is the norm of the last
position (shared helper). -/
theorem dispCol_getLastD : ∀ (t : List State) (a : State),
    (dispCol t).getLastD (normR a.p) = normR (t.getLastD a).p
  | [], _ => rfl
  | b :: t, _ => by
      simp only [dispCol, List.map_cons, List.getLastD_cons]
      exact dispCol_getLastD t b

/-- Unfolding of calculate_drift with a known distance (shared helper). -/
theorem calculate_drift_some (pd : List State) (d : ℚ) :
    calculate_drift pd (some d) =
      ⟨(pd.getLastD default).p, (dispCol pd).getLastD 0,
        normR (pd.getLastD default).p, some d, some (maxD (dispCol pd)),
        some |maxD (dispCol pd) - (d : ℝ)|,
        some (|maxD (dispCol pd) - (d : ℝ)| / (d : ℝ) * 100),
        some (normR (pd.getLastD default).p)⟩ := rfl

/-- C9: on any completed run (both modes), with a known distance supplied, the
three reported metrics coincide: drift_magnitude, final_displacement and
return_error are each the Euclidean norm of the final position. -/
theorem drift_metrics_coincide (cfg : Cfg) (s : List Sample) (kd : ℚ)
    (h : s ≠ []) :
    (calculate_drift (calculate_position cfg s) (some kd)).drift_magnitude
      = normR (calculate_drift (calculate_position cfg s)
          (some kd)).final_position ∧
    (calculate_drift (calculate_position cfg s) (some kd)).final_displacement
      = normR (calculate_drift (calculate_position cfg s)
          (some kd)).final_position ∧
    (calculate_drift (calculate_position cfg s) (some kd)).return_error
      = some (normR (calculate_drift (calculate_position cfg s)
          (some kd)).final_position) := by
  have hne : calculate_position cfg s ≠ [] := by
    have := calculate_position_length cfg s
    intro hcon
    rw [hcon] at this
    exact h (List.eq_nil_of_length_eq_zero this.symm)
  obtain ⟨a, t, hpd⟩ := List.exists_cons_of_ne_nil hne
  rw [hpd, calculate_drift_some]
  refine ⟨rfl, ?_, rfl⟩
  show (dispCol (a :: t)).getLastD 0 = normR ((a :: t).getLastD default).p
  simp only [dispCol, List.map_cons, List.getLastD_cons]
  exact dispCol_getLastD t a

/-- Witness for C9 at a concrete one-row plain-mode run. -/
theorem drift_metrics_coincide_witness :
    ([smp0] : List Sample) ≠ [] ∧
    ((calculate_drift (calculate_position cfg0 [smp0])
        (some 1)).drift_magnitude
      = normR (calculate_drift (calculate_position cfg0 [smp0])
          (some 1)).final_position ∧
     (calculate_drift (calculate_position cfg0 [smp0])
        (some 1)).final_displacement
      = normR (calculate_drift (calculate_position cfg0 [smp0])
          (some 1)).final_position ∧
     (calculate_drift (calculate_position cfg0 [smp0])
        (some 1)).return_error
      = some (normR (calculate_drift (calculate_position cfg0 [smp0])
          (some 1)).final_position)) :=
  ⟨by simp, drift_metrics_coincide cfg0 [smp0] 1 (by simp)⟩

/-- C6 counterexample: with knownDistance = 0 and the percentage metric,
calculate_drift does not fail - on a concrete one-row run it returns the full
metrics record (the percent field is computed by unguarded division by zero:
numpy float division yields inf/nan in the source, and no ConfigurationError
type exists anywhere in it; the rational model's division by zero gives 0). -/
theorem zero_known_distance_counterexample :
    calculate_drift (calculate_position cfg0 [smp0]) (some 0) =
      ⟨(0, 0, 0), 0, 0, some 0, some 0, some 0, some 0, some 0⟩ := by
  have h : calculate_position cfg0 [smp0] = [⟨(0, 0, 0), (0, 0, 0)⟩] := by
    simp [calculate_position, cfg0, vP, pP, List.range_succ]
  rw [h]
  simp [calculate_drift, dispCol, normR, maxD, smp0]

/-- C6 (corrected): for every completed series, calculate_drift with
knownDistance = 0 returns a full metrics record rather than raising a typed
error; the percent field is the unguarded quotient
|max_displacement - 0| / 0 * 100 (inf/nan under the source's numpy float
semantics, the junk value of total division here). -/
theorem zero_known_distance_returns_record (pd : List State) :
    calculate_drift pd (some 0) =
      ⟨(pd.getLastD default).p, (dispCol pd).getLastD 0,
        normR (pd.getLastD default).p, some 0, some (maxD (dispCol pd)),
        some |maxD (dispCol pd) - ((0 : ℚ) : ℝ)|,
        some (|maxD (dispCol pd) - ((0 : ℚ) : ℝ)| / ((0 : ℚ) : ℝ) * 100),
        some (normR (pd.getLastD default).p)⟩ := rfl

/-- C7 counterexample: with present but malformed calibration parameters (a
two-entry bias, on which the try-block subtraction raises), apply_calibration
silently returns the uncalibrated raw data instead of failing with a typed
error - the except branch at position.py lines 112-115. -/
theorem calibration_silent_fallback_counterexample :
    calSample cfg0 badParams (sampleAt s2 0) = none ∧
    apply_calibration cfg0 (some badParams) s2 = s2 := by
  constructor
  · simp [calSample, applyCal, sub3, badParams, sampleAt, s2, accVec, cfg0]
  · simp [apply_calibration, calRows, calSample, applyCal, sub3, badParams,
      s2, accVec, cfg0]

/-- C7 (corrected): the silent fallback lives inside the core function itself:
apply_calibration returns the raw series unchanged both when no calibration
parameters are supplied and when applying them fails, instead of propagating a
typed error. -/
theorem apply_calibration_raw_fallback (cfg : Cfg) (s : List Sample) :
    apply_calibration cfg none s = s ∧
    ∀ p : CalParams, calRows cfg p s = none →
      apply_calibration cfg (some p) s = s := by
  refine ⟨rfl, fun p h => ?_⟩
  simp [apply_calibration, h]

/-- Witness for the corrected C7 at the concrete malformed parameters. -/
theorem apply_calibration_raw_fallback_witness :
    calRows cfg0 badParams s2 = none ∧
    (apply_calibration cfg0 none s2 = s2 ∧
     apply_calibration cfg0 (some badParams) s2 = s2) := by
  have h : calRows cfg0 badParams s2 = none := by
    simp [calRows, calSample, applyCal, sub3, badParams, s2, accVec, cfg0]
  exact ⟨h, (apply_calibration_raw_fallback cfg0 s2).1,
    (apply_calibration_raw_fallback cfg0 s2).2 badParams h⟩

/-- applyCal on well-shaped parameters with g-unit input is exactly
`transform . (x - bias)` (shared helper). -/
theorem applyCal_mkParams_g (z : Bool) (th : ℚ) (w : ℕ) (b : Fin 3 → ℚ)
    (T : Mat3) (x : Fin 3 → ℚ) :
    applyCal ⟨false, z, th, w⟩ (mkParams b T) x
      = some (T.mulVec (fun j => x j - b j)) := by
  simp only [applyCal, mkParams, sub3, dotMat, dotRow, Option.some_bind,
    Bool.false_eq_true, if_false]
  refine congrArg some ?_
  funext i
  fin_cases i <;>
    simp [Matrix.mulVec, Matrix.dotProduct, Fin.sum_univ_three]

/-- applyCal on well-shaped parameters with m/s² input divides by g, applies
`transform . (x - bias)`, and multiplies back by g (shared helper). -/
theorem applyCal_mkParams_mps2 (z : Bool) (th : ℚ) (w : ℕ) (b : Fin 3 → ℚ)
    (T : Mat3) (x : Fin 3 → ℚ) :
    applyCal ⟨true, z, th, w⟩ (mkParams b T) x
      = some (fun i => T.mulVec (fun j => x j / g - b j) i * g) := by
  simp only [applyCal, mkParams, sub3, dotMat, dotRow, Option.some_bind,
    if_true]
  refine congrArg some ?_
  funext i
  fin_cases i <;>
    simp [Matrix.mulVec, Matrix.dotProduct, Fin.sum_univ_three]

/-- C8 counterexample: apply is NOT linear in its input once the unit is
fixed: with bias (1,0,0) and the identity transform, in g-units,
apply(0) = apply(0 + 0) = (-1,0,0), but apply(0) + apply(0) = (-2,0,0), so
additivity fails (the bias makes the map affine, not linear). -/
theorem apply_linear_counterexample :
    applyCal cfgG (mkParams bEx TId) zv = some ![-1, 0, 0] ∧
    applyCal cfgG (mkParams bEx TId) (fun j => zv j + zv j)
      = some ![-1, 0, 0] ∧
    (![-1, 0, 0] : Fin 3 → ℚ)
      ≠ (fun i => (![-1, 0, 0] : Fin 3 → ℚ) i
          + (![-1, 0, 0] : Fin 3 → ℚ) i) := by
  refine ⟨?_, ?_, ?_⟩
  · rw [show cfgG = ⟨false, false, 1/100, 5⟩ from rfl, applyCal_mkParams_g]
    refine congrArg some ?_
    funext i
    fin_cases i <;>
      simp [TId, bEx, zv, Matrix.mulVec, Matrix.dotProduct,
        Fin.sum_univ_three]
  · rw [show cfgG = ⟨false, false, 1/100, 5⟩ from rfl, applyCal_mkParams_g]
    refine congrArg some ?_
    funext i
    fin_cases i <;>
      simp [TId, bEx, zv, Matrix.mulVec, Matrix.dotProduct,
        Fin.sum_univ_three]
  · intro h
    have h0 := congrFun h 0
    norm_num at h0

/-- C8 (corrected): calibration operates internally in g-units - for an m/s²
sample it returns (transform . (x/9.81 - bias)) * 9.81 and for a g sample
transform . (x - bias); the divide-by-9.81/multiply-by-9.81 round-trip is
exact and symmetric; and once the unit conversion is fixed, apply is AFFINE in
its input (it preserves affine combinations c*x + (1-c)*y; genuine linearity
fails because of the bias, see the counterexample). -/
theorem apply_calibration_unit_model (z : Bool) (th : ℚ) (w : ℕ)
    (b : Fin 3 → ℚ) (T : Mat3) (x y : Fin 3 → ℚ) (c : ℚ) :
    applyCal ⟨true, z, th, w⟩ (mkParams b T) x
      = some (fun i => T.mulVec (fun j => x j / g - b j) i * g) ∧
    applyCal ⟨false, z, th, w⟩ (mkParams b T) x
      = some (T.mulVec (fun j => x j - b j)) ∧
    (fun i => x i / g * g) = x ∧
    (fun i => x i * g / g) = x ∧
    applyCal ⟨false, z, th, w⟩ (mkParams b T)
        (fun j => c * x j + (1 - c) * y j)
      = some (fun i => c * T.mulVec (fun j => x j - b j) i
          + (1 - c) * T.mulVec (fun j => y j - b j) i) := by
  refine ⟨applyCal_mkParams_mps2 z th w b T x, applyCal_mkParams_g z th w b T x,
    ?_, ?_, ?_⟩
  · funext i
    rw [div_mul_cancel₀]
    norm_num [g]
  · funext i
    rw [mul_div_cancel_right₀]
    norm_num [g]
  · rw [applyCal_mkParams_g]
    refine congrArg some ?_
    funext i
    simp only [Matrix.mulVec, Matrix.dotProduct, Fin.sum_univ_three]
    ring

/-- C10: the row-wise matrix implementation of calibration application in
calculate_params.py - `(points - bias) . transform_T` over the whole point
cloud - agrees with the per-sample loop of position.py -
`transform . (x - bias)` per row - on every bias, transform, and point set in
the same units. -/
theorem rowwise_equals_per_sample (z : Bool) (th : ℚ) (w : ℕ)
    (b : Fin 3 → ℚ) (T : Mat3) (pts : List (Fin 3 → ℚ)) :
    applyCalRows ⟨false, z, th, w⟩ (mkParams b T) pts
      = some (calibrate_accelerometer_apply b T pts) := by
  induction pts with
  | nil => rfl
  | cons x tl ih =>
      rw [applyCalRows, applyCal_mkParams_g, ih]
      simp [calibrate_accelerometer_apply, Matrix.vecMul_transpose]

/-- Index-arithmetic helper: castSucc on the literal 0 of Fin 3. -/
theorem castSucc_f0 : Fin.castSucc (0 : Fin 3) = (0 : Fin 4) := rfl

/-- Index-arithmetic helper: castSucc on the literal 1 of Fin 3. -/
theorem castSucc_f1 : Fin.castSucc (1 : Fin 3) = (1 : Fin 4) := rfl

/-- Index-arithmetic helper: castSucc on the literal 2 of Fin 3. -/
theorem castSucc_f2 : Fin.castSucc (2 : Fin 3) = (2 : Fin 4) := rfl

/-- Index-arithmetic helper: the value of the literal 3 of Fin 4. -/
theorem val_f3 : ((3 : Fin 4) : ℕ) = 3 := rfl

/-- Entry 0 of u0. -/
theorem u0_e0 : u0 0 = 1 := rfl

/-- Entry 1 of u0. -/
theorem u0_e1 : u0 1 = 1 := rfl

/-- Entry 2 of u0. -/
theorem u0_e2 : u0 2 = -1 := rfl

/-- Entry 3 of u0. -/
theorem u0_e3 : u0 3 = 0 := rfl

/-- Entry 4 of u0. -/
theorem u0_e4 : u0 4 = 0 := rfl

/-- Entry 5 of u0. -/
theorem u0_e5 : u0 5 = 0 := rfl

/-- Entry 6 of u0. -/
theorem u0_e6 : u0 6 = 0 := rfl

/-- Entry 7 of u0. -/
theorem u0_e7 : u0 7 = 0 := rfl

/-- Entry 8 of u0. -/
theorem u0_e8 : u0 8 = 0 := rfl

/-- The 3x3 block of the quadric matrix of u0 (shared helper). -/
theorem blockA33_u0 :
    blockA33 (quadricA u0) = !![(1 : ℚ), 0, 0; 0, 1, 0; 0, 0, -1] := by
  funext i j
  fin_cases i <;> fin_cases j <;>
    simp [blockA33, quadricA, u0_e0, u0_e1, u0_e2, u0_e3, u0_e4, u0_e5,
      u0_e6, u0_e7, u0_e8, castSucc_f0, castSucc_f1, castSucc_f2,
      Matrix.cons_val_two, Matrix.cons_val_three,
      Matrix.vecHead, Matrix.vecTail]

/-- The last column of the quadric matrix of u0 is zero (shared helper). -/
theorem colA3_u0 : colA3 (quadricA u0) = ![0, 0, 0] := by
  funext i
  fin_cases i <;>
    simp [colA3, quadricA, u0_e5, u0_e6, u0_e7, u0_e8, castSucc_f0,
      castSucc_f1, castSucc_f2, Matrix.cons_val_two, Matrix.cons_val_three,
      Matrix.vecHead, Matrix.vecTail]

/-- The center solve on the pts9 system succeeds and yields the origin
(shared helper). -/
theorem solve3_u0 :
    solve3 (- blockA33 (quadricA u0)) (colA3 (quadricA u0)) = some cen0 := by
  rw [blockA33_u0, colA3_u0]
  have hdet : det3 (- !![(1 : ℚ), 0, 0; 0, 1, 0; 0, 0, -1]) = 1 := by
    norm_num [det3, Matrix.neg_apply]
  rw [solve3, if_neg (by rw [hdet]; norm_num)]
  refine congrArg some ?_
  funext j
  rw [hdet]
  fin_cases j <;>
    norm_num [det3, replCol, Matrix.neg_apply, cen0, Fin.ext_iff,
      Matrix.cons_val_two]

/-- The translation matrix at center zero is the identity (shared helper). -/
theorem transT_cen0 : transT cen0 = (1 : Mat4) := by
  funext i j
  fin_cases i <;> fin_cases j <;>
    simp [transT, cen0, Matrix.one_apply, val_f3, Fin.ext_iff]

/-- The matrix handed to the eigendecomposition for the pts9 system is
diagonal with entries (1, 1, -1) (shared helper). -/
theorem eigInput_u0 :
    eigInput (transT cen0 * quadricA u0 * (transT cen0).transpose)
      = Matrix.diagonal d0 := by
  rw [transT_cen0, Matrix.transpose_one, Matrix.one_mul, Matrix.mul_one]
  funext i j
  fin_cases i <;> fin_cases j <;>
    simp [eigInput, blockA33, quadricA, u0_e0, u0_e1, u0_e2, u0_e3, u0_e4,
      u0_e5, u0_e6, u0_e7, u0_e8, Matrix.diagonal, d0, castSucc_f0,
      castSucc_f1, castSucc_f2, val_f3, Fin.ext_iff, Matrix.cons_val_two,
      Matrix.cons_val_three, Matrix.vecHead, Matrix.vecTail]

/-- Entry 0 of a design row (shared helper for evaluating D9). -/
theorem designRow_e0 (x y z : ℚ) : designRow x y z 0 = x^2 := rfl

/-- Entry 1 of a design row. -/
theorem designRow_e1 (x y z : ℚ) : designRow x y z 1 = y^2 := rfl

/-- Entry 2 of a design row, mk-index form. -/
theorem designRow_m2 (x y z : ℚ) : designRow x y z ⟨2, by omega⟩ = z^2 := rfl

/-- Entry 3 of a design row, mk-index form. -/
theorem designRow_m3 (x y z : ℚ) : designRow x y z ⟨3, by omega⟩ = 2*x*y := rfl

/-- Entry 4 of a design row, mk-index form. -/
theorem designRow_m4 (x y z : ℚ) : designRow x y z ⟨4, by omega⟩ = 2*x*z := rfl

/-- Entry 5 of a design row, mk-index form. -/
theorem designRow_m5 (x y z : ℚ) : designRow x y z ⟨5, by omega⟩ = 2*y*z := rfl

/-- Entry 6 of a design row, mk-index form. -/
theorem designRow_m6 (x y z : ℚ) : designRow x y z ⟨6, by omega⟩ = 2*x := rfl

/-- Entry 7 of a design row, mk-index form. -/
theorem designRow_m7 (x y z : ℚ) : designRow x y z ⟨7, by omega⟩ = 2*y := rfl

/-- Entry 8 of a design row, mk-index form. -/
theorem designRow_m8 (x y z : ℚ) : designRow x y z ⟨8, by omega⟩ = 2*z := rfl

/-- The list-form design matrix of pts9 used by fit_ellipsoid is, row for
row, the matrix D9 (shared helper; definitional). -/
theorem design_pts9_rows :
    designMatrix pts9 = [D9 0, D9 1, D9 2, D9 3, D9 4, D9 5, D9 6, D9 7,
      D9 8] := rfl

set_option maxHeartbeats 3200000 in
/-- E9 is a left inverse of the design matrix of pts9 (shared helper): the
design columns are linearly independent, so a residual-zero solution of the
least-squares system is its unique solution. -/
theorem E9_left_inverse : E9 * D9 = 1 := by
  funext i j
  fin_cases i <;> fin_cases j <;>
    norm_num [Matrix.mul_apply, Fin.sum_univ_succ, E9, D9, p9,
      designRow_e0, designRow_e1, designRow_m2, designRow_m3, designRow_m4,
      designRow_m5, designRow_m6, designRow_m7, designRow_m8,
      Matrix.one_apply, Fin.ext_iff]

set_option maxHeartbeats 1600000 in
/-- u0 solves the design system of pts9 exactly: every design row dotted with
u0 gives 1, i.e. the least-squares residual is zero (shared helper). -/
theorem pts9_residual_zero :
    (designMatrix pts9).map (fun r => Matrix.dotProduct r u0)
      = List.replicate 9 1 := by
  norm_num [designMatrix, pts9, designRow, u0, Matrix.dotProduct,
    Fin.sum_univ_succ, List.replicate]

/-- fit_ellipsoid on pts9 with the certified oracle instantiations returns
the origin center, radii 1/sqrt((1,1,-1)), and identity eigenvectors
(shared helper). -/
theorem fit_pts9 :
    fit_ellipsoid lstsq0 eig0 pts9
      = some (cen0, fun i => 1 / Real.sqrt ((d0 i : ℝ)), 1) := by
  show (match solve3 (- blockA33 (quadricA u0)) (colA3 (quadricA u0)) with
    | none => none
    | some center =>
        let R := transT center * quadricA u0 * (transT center).transpose
        let ev := eig0 (eigInput R)
        some (center, fun i => 1 / Real.sqrt ((ev.1 i : ℝ)), ev.2))
    = some (cen0, fun i => 1 / Real.sqrt ((d0 i : ℝ)), 1)
  rw [solve3_u0]
  show some (cen0,
      fun i => 1 / Real.sqrt (((eig0 (eigInput (transT cen0 * quadricA u0 *
        (transT cen0).transpose))).1 i : ℝ)),
      (eig0 (eigInput (transT cen0 * quadricA u0 *
        (transT cen0).transpose))).2) = _
  rw [eigInput_u0]
  refine congrArg some ?_
  refine congrArg (Prod.mk cen0) ?_
  refine congrArg₂ Prod.mk ?_ rfl
  funext i
  simp only [eig0]
  rw [Matrix.diagonal_apply_eq]

/-- C5 counterexample: nine points lying exactly on the hyperboloid
x^2 + y^2 - z^2 = 1, whose quadratic form has the negative eigenvalue -1.
The lstsq instantiation is pinned down exactly: the design matrix of pts9 is
D9 row for row (first conjunct, definitional), E9 * D9 = 1 shows it is
invertible, and u0 solves the system with residual zero - so u0 is the UNIQUE
least-squares solution, the one np.linalg.lstsq returns on this
full-rank 9x9 system (the solution set is the singleton, no minimum-norm tie
break is involved). The matrix handed to the eigendecomposition is the
diagonal (1, 1, -1), and (d0, identity) is a genuine eigendecomposition of it
(diag d0 * 1 = 1 * diag d0). The derived quadratic form therefore has a
non-positive eigenvalue - a degeneracy the claim says must fail with a
DegenerateInputError - yet fit_ellipsoid returns a result, and the third
radius 1/sqrt(-1) is not a strictly positive real (NaN in the source, junk 0
in the real model). -/
theorem fit_ellipsoid_counterexample :
    designMatrix pts9
      = [D9 0, D9 1, D9 2, D9 3, D9 4, D9 5, D9 6, D9 7, D9 8] ∧
    E9 * D9 = 1 ∧
    (designMatrix pts9).map (fun r => Matrix.dotProduct r u0)
      = List.replicate 9 1 ∧
    eigInput (transT cen0 * quadricA u0 * (transT cen0).transpose)
      = Matrix.diagonal d0 ∧
    Matrix.diagonal d0 * (1 : Mat3) = (1 : Mat3) * Matrix.diagonal d0 ∧
    fit_ellipsoid lstsq0 eig0 pts9
      = some (cen0, fun i => 1 / Real.sqrt ((d0 i : ℝ)), 1) ∧
    ¬ (0 < 1 / Real.sqrt ((d0 2 : ℝ))) := by
  refine ⟨design_pts9_rows, E9_left_inverse, pts9_residual_zero,
    eigInput_u0, by simp, fit_pts9, ?_⟩
  have h2 : ((d0 2 : ℚ) : ℝ) = -1 := by norm_num [d0]
  rw [h2, Real.sqrt_eq_zero_of_nonpos (by norm_num)]
  norm_num

/-- C5 (corrected): fit_ellipsoid performs no input validation at all:
whenever the 3x3 center solve is nonsingular it returns a result, regardless
of the number or configuration of the points and of the signs of the
eigenvalues. No DegenerateInputError exists in the source; a non-positive
eigenvalue flows into 1.0/np.sqrt and yields a radius that is not a strictly
positive real (NaN) instead of an error, and the only failing path is the
singular center solve, which surfaces as numpy's generic LinAlgError. -/
theorem fit_ellipsoid_no_validation
    (lstsq : List (Fin 9 → ℚ) → List ℚ → (Fin 9 → ℚ))
    (eig : Mat3 → (Fin 3 → ℚ) × Mat3) (pts : List (ℚ × ℚ × ℚ))
    (h : det3 (- blockA33 (quadricA
        (lstsq (designMatrix pts) (pts.map (fun _ => 1))))) ≠ 0) :
    (fit_ellipsoid lstsq eig pts).isSome := by
  simp only [fit_ellipsoid, solve3, if_neg h, Option.isSome_some]

/-- Witness for the corrected C5 at the concrete degenerate nine-point input. -/
theorem fit_ellipsoid_no_validation_witness :
    det3 (- blockA33 (quadricA
        (lstsq0 (designMatrix pts9) (pts9.map (fun _ => 1))))) ≠ 0 ∧
    (fit_ellipsoid lstsq0 eig0 pts9).isSome := by
  have h : det3 (- blockA33 (quadricA
      (lstsq0 (designMatrix pts9) (pts9.map (fun _ => 1))))) ≠ 0 := by
    show det3 (- blockA33 (quadricA u0)) ≠ 0
    rw [blockA33_u0]
    norm_num [det3, Matrix.neg_apply]
  exact ⟨h, fit_ellipsoid_no_validation lstsq0 eig0 pts9 h⟩

end EmbeddedIMU
